import Mathlib

/-!
Verification development for the toolhive request gateway.

Part A models the request-processing pipeline (protocol parser, policy
authorization engine, response filter, orchestrator).  The pipeline code is
not present under src/ in this snapshot, so these definitions are modelled
from the specification document, as their doc comments record.

Part B embeds the secrets code that is present in the snapshot:
`pkg/secrets/factory.go` (CreateSecretProvider), `pkg/secrets/kubernetes.go`
(KubernetesManager.GetSecret) and the vault secret file processing of the
runner package (processVaultSecretFile).
-/

/-- Modelled from the spec: a minimal JSON value, covering the envelope
fields (`method`, `id`, `params`) and the method-dependent projections the
Protocol Parser performs on `params`. -/
inductive Json where
  | null : Json
  | bool : Bool → Json
  | num : Int → Json
  | str : String → Json
  | arr : List Json → Json
  | obj : List (String × Json) → Json

/-- Field lookup on a JSON object; `none` on non-objects or missing keys. -/
def Json.getField (j : Json) (key : String) : Option Json :=
  match j with
  | .obj fields => fields.lookup key
  | _ => none

/-- Projection of a string field out of a JSON object. -/
def Json.getStr (j : Json) (key : String) : Option String :=
  match j.getField key with
  | some (.str s) => some s
  | _ => none

/-- Modelled from the spec: `ParsedRequest` as given in the data model of the
spec, section 3.  `arguments` is an optional JSON value because several
method handlers project a single non-object value into it. -/
structure ParsedRequest where
  method : String
  id : Option Json
  resourceID : String
  arguments : Option Json
  isRequest : Bool
  isBatch : Bool

/-- Modelled from the spec: the known method names of the parser's
method-to-handler table, section 4.1. -/
def knownMethods : List String :=
  ["initialize", "tools/call", "prompts/get", "resources/read",
   "resources/list", "tools/list", "prompts/list", "progress/update",
   "notifications/message", "logging/setLevel", "completion/complete",
   "ping", "notifications/roots/list_changed", "notifications/initialized"]

/-- Modelled from the spec: the table-driven projection of
`(resourceID, arguments)` out of `params`, section 4.1.  The source's
dispatch table is absent from src/; each branch follows the required
mapping listed in the spec. -/
def extractMethod (m : String) (params : Json) : String × Option Json :=
  if m = "initialize" then ("", params.getField "clientInfo")
  else if m = "tools/call" then
    (((params.getStr "name").getD ""), params.getField "arguments")
  else if m = "prompts/get" then
    (((params.getStr "name").getD ""), params.getField "arguments")
  else if m = "resources/read" then (((params.getStr "uri").getD ""), none)
  else if m = "resources/list" then ("", params.getField "cursor")
  else if m = "tools/list" then ("", params.getField "cursor")
  else if m = "prompts/list" then ("", params.getField "cursor")
  else if m = "progress/update" then ("", params.getField "progressToken")
  else if m = "notifications/message" then ("", params.getField "method")
  else if m = "logging/setLevel" then ("", params.getField "level")
  else if m = "completion/complete" then ("", params.getField "ref")
  else if m = "ping" then ("ping", none)
  else if m = "notifications/roots/list_changed" then ("roots", none)
  else if m = "notifications/initialized" then ("initialized", none)
  else ("", none)

/-- Modelled from the spec: the Protocol Parser building a `ParsedRequest`
for a single (non-batch) JSON-RPC envelope, section 4.1. -/
def parseRequest (m : String) (id : Option Json) (params : Json) : ParsedRequest :=
  let proj := extractMethod m params
  { method := m, id := id, resourceID := proj.1, arguments := proj.2,
    isRequest := id.isSome, isBatch := false }

/-- Modelled from the spec: claims are a mapping of identity attributes,
section 3. -/
def Claims : Type := List (String × String)

/-- Modelled from the spec: the features addressed by the
method-to-(feature, operation) table of section 4.2. -/
inductive Feature where
  | tool : Feature
  | resource : Feature
  | prompt : Feature
deriving DecidableEq, Repr

/-- Modelled from the spec: the operations of the
method-to-(feature, operation) table of section 4.2. -/
inductive Operation where
  | call : Operation
  | read : Operation
  | get : Operation
  | list : Operation
deriving DecidableEq, Repr

/-- Modelled from the spec: the static method-to-(feature, operation) table
of the Policy Authorization Engine, section 4.2.  Methods with no mapping
yield `none`. -/
def methodToFeatureOperation (m : String) : Option (Feature × Operation) :=
  if m = "tools/call" then some (.tool, .call)
  else if m = "resources/read" then some (.resource, .read)
  else if m = "prompts/get" then some (.prompt, .get)
  else if m = "tools/list" then some (.tool, .list)
  else if m = "resources/list" then some (.resource, .list)
  else if m = "prompts/list" then some (.prompt, .list)
  else none

/-- Modelled from the spec: the hard skip allowlist of methods that carry no
access-control meaning, section 4.2. -/
def methodAllowlist : List String := ["ping", "progress/update", "initialize"]

/-- Modelled from the spec: the Entity triple plus context bag fed to the
policy engine, section 3. -/
structure Entity where
  principal : String
  feature : Feature
  operation : Operation
  resource : String
  context : List (String × String)
  args : Option Json

/-- Modelled from the spec: the compiled policy set, abstracted as an
evaluation function that can fail per request (malformed entity and the
like). -/
def PolicySet : Type := Entity → Except String Bool

/-- Modelled from the spec: building an Entity from claims (principal),
feature/operation (action), resourceID (resource) and arguments/claims as
context attributes, section 4.2. -/
def buildEntity (claims : Claims) (f : Feature) (op : Operation)
    (pr : ParsedRequest) : Entity :=
  { principal := (List.lookup "sub" claims).getD "",
    feature := f, operation := op, resource := pr.resourceID,
    context := claims, args := pr.arguments }

/-- Modelled from the spec: HTTP metadata the engine consults before any
policy work, sections 4.1 and 4.2. -/
structure HttpInfo where
  isPost : Bool
  isJson : Bool
  isStreaming : Bool
deriving DecidableEq, Repr

/-- Modelled from the spec: the outcome of an authorization evaluation.
`skipped` is the implicit Allow of the hard skip paths. -/
inductive AuthOutcome where
  | skipped : AuthOutcome
  | allow : AuthOutcome
  | deny : String → AuthOutcome
  | allowFiltered : Feature → Operation → AuthOutcome
deriving DecidableEq, Repr

/-- Modelled from the spec: an evaluation result instrumented with how many
entities were constructed and how many policy lookups were performed, so
that the hard-skip contract of section 4.2 is stateable. -/
structure AuthTrace where
  outcome : AuthOutcome
  entitiesBuilt : Nat
  policyLookups : Nat
deriving DecidableEq, Repr

/-- Modelled from the spec: `Evaluate(claims, parsedRequest)` of the Policy
Authorization Engine, section 4.2.  Skip checks run first (non-POST or
non-JSON, streaming establishment, allowlisted method); unmapped methods
are denied fail-closed; list-shaped operations return AllowFiltered and
defer per-item policy lookups to the response filter; other mapped methods
evaluate the entity, treating evaluation errors as Deny. -/
def Evaluate (ps : PolicySet) (claims : Claims) (http : HttpInfo)
    (pr : Option ParsedRequest) : AuthTrace :=
  if !http.isPost || !http.isJson then
    { outcome := .skipped, entitiesBuilt := 0, policyLookups := 0 }
  else if http.isStreaming then
    { outcome := .skipped, entitiesBuilt := 0, policyLookups := 0 }
  else
    match pr with
    | none => { outcome := .skipped, entitiesBuilt := 0, policyLookups := 0 }
    | some p =>
      if p.method ∈ methodAllowlist then
        { outcome := .skipped, entitiesBuilt := 0, policyLookups := 0 }
      else
        match methodToFeatureOperation p.method with
        | none =>
          { outcome := .deny "method not mapped to a feature and operation",
            entitiesBuilt := 0, policyLookups := 0 }
        | some (f, op) =>
          if op = .list then
            { outcome := .allowFiltered f op, entitiesBuilt := 1,
              policyLookups := 0 }
          else
            match ps (buildEntity claims f op p) with
            | .error e =>
              { outcome := .deny ("policy evaluation fault: " ++ e),
                entitiesBuilt := 1, policyLookups := 1 }
            | .ok true =>
              { outcome := .allow, entitiesBuilt := 1, policyLookups := 1 }
            | .ok false =>
              { outcome := .deny "Unauthorized", entitiesBuilt := 1,
                policyLookups := 1 }

/-- Modelled from the spec: the per-item predicate an AllowFiltered decision
carries, section 4.2: the same entity-evaluation logic re-invoked per item
with the item's identifier substituted as resource, failing closed on
evaluation faults. -/
def itemAllowed (ps : PolicySet) (claims : Claims) (f : Feature)
    (op : Operation) (args : Option Json) (item : Json) : Bool :=
  let itemID := (item.getStr "name").getD ""
  match ps { principal := (List.lookup "sub" claims).getD "",
             feature := f, operation := op, resource := itemID,
             context := claims, args := args } with
  | .ok true => true
  | .ok false => false
  | .error _ => false

/-- Modelled from the spec: the Response Filter's core list operation,
section 4.3: items failing the per-item predicate are removed, ordering of
surviving items is preserved. -/
def filterItems (pred : Json → Bool) (items : List Json) : List Json :=
  items.filter pred

/-- Modelled from the spec: filtering of a result object, section 4.3: every
list field of the result object is filtered by the per-item predicate;
non-list fields are untouched. -/
def filterResultObj (pred : Json → Bool) (j : Json) : Json :=
  match j with
  | .obj fields =>
    .obj (fields.map (fun kv =>
      match kv with
      | (k, .arr items) => (k, .arr (filterItems pred items))
      | (k, v) => (k, v)))
  | _ => j

/-- Modelled from the spec: the Response Filter on a whole JSON-RPC response,
section 4.3: a recognizable result object has its list fields filtered under
the original envelope; anything else (error objects included) passes through
unmodified. -/
def responseFilter (pred : Json → Bool) (resp : Json) : Json :=
  match resp with
  | .obj fields =>
    if (fields.lookup "result").isSome then
      .obj (fields.map (fun kv =>
        match kv with
        | ("result", r) => ("result", filterResultObj pred r)
        | (k, v) => (k, v)))
    else resp
  | _ => resp

/-- Modelled from the spec: the backend handler interface, section 6:
`Handle(parsedOrRawRequest) -> response bytes | error`. -/
def Handler : Type := Option ParsedRequest → Except String Json

/-- Modelled from the spec: the outbound error shape for an authorization
denial, section 6: the original id with a 403 Unauthorized error member. -/
def denyResponse (id : Option Json) : Json :=
  .obj [("id", id.getD .null),
        ("error", .obj [("code", .num 403), ("message", .str "Unauthorized")])]

/-- Modelled from the spec: the observable trace of one orchestrator run,
section 4.6: how often the backend ran, how many audit events and telemetry
spans were emitted, whether the Handled stage was reached, and the response
written to the caller. -/
structure PipelineTrace where
  backendInvocations : Nat
  auditEvents : Nat
  telemetrySpans : Nat
  handledReached : Bool
  response : Json

/-- Modelled from the spec: the Pipeline Orchestrator, section 4.6.  The
claims map is supplied by the external Claims Provider; the request is
evaluated, a Deny terminates the chain before the backend with the
403-shaped error, Allow and implicit-allow paths invoke the backend, an
AllowFiltered decision invokes the backend and filters the outbound result,
and the Recorded stage (one audit event, one telemetry span) always runs. -/
def runPipeline (ps : PolicySet) (handler : Handler) (claims : Claims)
    (http : HttpInfo) (pr : Option ParsedRequest) : PipelineTrace :=
  let auth := Evaluate ps claims http pr
  match auth.outcome with
  | .deny _ =>
    { backendInvocations := 0, auditEvents := 1, telemetrySpans := 1,
      handledReached := false,
      response := denyResponse (pr.bind ParsedRequest.id) }
  | .allowFiltered f op =>
    match handler pr with
    | .error e =>
      { backendInvocations := 1, auditEvents := 1, telemetrySpans := 1,
        handledReached := true,
        response := .obj [("error", .str e)] }
    | .ok resp =>
      let args := pr.bind ParsedRequest.arguments
      { backendInvocations := 1, auditEvents := 1, telemetrySpans := 1,
        handledReached := true,
        response := responseFilter (itemAllowed ps claims f op args) resp }
  | _ =>
    match handler pr with
    | .error e =>
      { backendInvocations := 1, auditEvents := 1, telemetrySpans := 1,
        handledReached := true,
        response := .obj [("error", .str e)] }
    | .ok resp =>
      { backendInvocations := 1, auditEvents := 1, telemetrySpans := 1,
        handledReached := true, response := resp }

/-- Error values of `pkg/secrets/factory.go`.  `errUnknownManagerType` embeds
`ErrUnknownManagerType`, `errKeyringNotAvailable` embeds
`ErrKeyringNotAvailable`, and `wrapped` embeds the `fmt.Errorf`-wrapped
errors of the constructor paths. -/
inductive FactoryError where
  | errUnknownManagerType : FactoryError
  | errKeyringNotAvailable : FactoryError
  | wrapped : String → FactoryError
deriving DecidableEq, Repr

/-- The effectful inputs of `CreateSecretProvider` in
`pkg/secrets/factory.go`, abstracted: whether the OS keyring is available
(`IsKeyringAvailable`), and the outcomes of the three constructor paths
(`GetSecretsPassword`/`xdg.DataFile`/`NewEncryptedManager`,
`NewOnePasswordManager`, `NewNoneManager`). -/
structure FactoryEnv (Provider : Type) where
  keyringAvailable : Bool
  encryptedResult : Except FactoryError Provider
  onePasswordResult : Except FactoryError Provider
  noneResult : Except FactoryError Provider

/-- Embeds `CreateSecretProvider` of `pkg/secrets/factory.go`: a switch on
the provider type string with cases "encrypted", "1password" and "none",
whose default case returns a nil provider and `ErrUnknownManagerType`.  The
Go pair `(Provider, error)` is modelled as
`Option Provider × Option FactoryError`. -/
def CreateSecretProvider (Provider : Type) (env : FactoryEnv Provider)
    (managerType : String) : Option Provider × Option FactoryError :=
  if managerType = "encrypted" then
    if !env.keyringAvailable then (none, some .errKeyringNotAvailable)
    else
      match env.encryptedResult with
      | .error e => (none, some e)
      | .ok p => (some p, none)
  else if managerType = "1password" then
    match env.onePasswordResult with
    | .error e => (none, some e)
    | .ok p => (some p, none)
  else if managerType = "none" then
    match env.noneResult with
    | .error e => (none, some e)
    | .ok p => (some p, none)
  else (none, some .errUnknownManagerType)

/-- Splits a character list at the first occurrence of `sep`: `none` when
`sep` does not occur, otherwise the parts before and after the first
occurrence.  This is `strings.SplitN(s, sep, 2)` of the Go standard library
for a one-character separator, in the two shapes it can produce. -/
def splitFirst (sep : Char) : List Char → Option (List Char × List Char)
  | [] => none
  | c :: cs =>
    if c = sep then some ([], cs)
    else
      match splitFirst sep cs with
      | none => none
      | some (before, post) => some (c :: before, post)

/-- The cluster as `KubernetesManager.GetSecret` sees it through
`client.Get`: a map from (namespace, secret name) to the secret's data map;
`none` models a failed lookup (missing secret or API error). -/
structure K8sCluster where
  fetch : String → String → Option (List (String × String))

/-- Embeds the `KubernetesManager` struct of `pkg/secrets/kubernetes.go`;
the Go field `namespace` is named `ns` here because `namespace` is a Lean
keyword. -/
structure KubernetesManager where
  cluster : K8sCluster
  ns : String

/-- The observable behaviour of one `GetSecret` call: the Go
`(string, error)` pair as `Except`, plus the list of
(namespace, secret name) pairs passed to `client.Get`, so that "no API
lookup happened" is stateable. -/
structure GetSecretTrace where
  result : Except String String
  queries : List (String × String)

/-- Embeds `KubernetesManager.GetSecret` of `pkg/secrets/kubernetes.go`:
an empty name errors; a name without '/' errors (the `SplitN` result has
fewer than two parts); an empty secret-name or key segment errors; otherwise
the secret is fetched from the manager's namespace and the key is looked up
in its data. -/
def KubernetesManager.GetSecret (k : KubernetesManager) (name : String) :
    GetSecretTrace :=
  if name = "" then
    { result := .error "secret name cannot be empty", queries := [] }
  else
    match splitFirst '/' name.toList with
    | none =>
      { result := .error ("invalid secret format: " ++ name ++
          ", expected <secret-name>/<key>"), queries := [] }
    | some (s, key) =>
      let secretName := String.mk s
      let keyName := String.mk key
      if secretName = "" ∨ keyName = "" then
        { result := .error ("invalid secret format: " ++ name ++
            ", secret name and key cannot be empty"), queries := [] }
      else
        match k.cluster.fetch k.ns secretName with
        | none =>
          { result := .error ("failed to get secret " ++ secretName),
            queries := [(k.ns, secretName)] }
        | some data =>
          match List.lookup keyName data with
          | none =>
            { result := .error ("key " ++ keyName ++ " not found in secret "
                ++ secretName), queries := [(k.ns, secretName)] }
          | some v =>
            { result := .ok v, queries := [(k.ns, secretName)] }

/-- Splits a character list at every newline, the way
`strings.Split(content, "\n")` does: the empty input yields one empty
line. -/
def splitLines : List Char → List (List Char)
  | [] => [[]]
  | c :: cs =>
    if c = '\n' then [] :: splitLines cs
    else
      match splitLines cs with
      | [] => [[c]]
      | l :: rest => (c :: l) :: rest

/-- Leading- and trailing-whitespace trimming of a line, the way
`strings.TrimSpace` does. -/
def trimChars (cs : List Char) : List Char :=
  ((cs.dropWhile Char.isWhitespace).reverse.dropWhile Char.isWhitespace).reverse

/-- Embeds the line-collection loop of `processVaultSecretFile` in the
runner package: each line is trimmed; empty lines and lines starting with
'#' are skipped; only lines containing '=' are kept. -/
def buildEnvLines : List (List Char) → List String
  | [] => []
  | l :: rest =>
    let line := trimChars l
    if line = [] then buildEnvLines rest
    else if line.head? = some '#' then buildEnvLines rest
    else if '=' ∈ line then String.mk line :: buildEnvLines rest
    else buildEnvLines rest

/-- Embeds `processVaultSecretFile` of the runner package on the file's
content (the `os.ReadFile` step is outside the model): the content is split
into lines, the KEY=VALUE candidate lines are collected, an empty collection
yields an empty map and no error, and otherwise the result of
`environment.ParseEnvironmentVariables` — abstracted as the `parseEnv`
argument because that package is not part of this snapshot — is returned,
with its error wrapped. -/
def processVaultSecretFile
    (parseEnv : List String → Except String (List (String × String)))
    (content : String) : Except String (List (String × String)) :=
  let envLines := buildEnvLines (splitLines content.toList)
  if envLines = [] then .ok []
  else
    match parseEnv envLines with
    | .error e => .error ("failed to parse environment variables: " ++ e)
    | .ok secrets => .ok secrets

/-- C2: for every list-shaped backend result and every per-item predicate,
the Response Filter's output list is the subsequence of the input list
consisting exactly of the items satisfying the predicate: it is a sublist
(subset, original relative order, nothing added), and this holds for all
list sizes including the empty and single-item lists. -/
theorem response_filter_is_exact_subsequence (pred : Json → Bool)
    (items : List Json) :
    List.Sublist (filterItems pred items) items ∧
    (∀ x, x ∈ filterItems pred items ↔ x ∈ items ∧ pred x = true) ∧
    filterItems pred [] = [] ∧
    (∀ x, filterItems pred [x] = if pred x then [x] else []) := by
  refine ⟨List.filter_sublist items, fun x => List.mem_filter, rfl, fun x => ?_⟩
  by_cases h : pred x = true
  · simp [filterItems, h]
  · simp [filterItems, h]

/-- C5: every request that reaches the orchestrator — denied requests,
requests whose body failed to parse and requests whose backend handler
errored included — produces exactly one audit event and exactly one
telemetry span. -/
theorem pipeline_exactly_one_audit_and_one_span (ps : PolicySet)
    (handler : Handler) (claims : Claims) (http : HttpInfo)
    (pr : Option ParsedRequest) :
    (runPipeline ps handler claims http pr).auditEvents = 1 ∧
    (runPipeline ps handler claims http pr).telemetrySpans = 1 := by
  cases hE : (Evaluate ps claims http pr).outcome <;>
    cases hH : handler pr <;>
      simp [runPipeline, hE, hH]

/-- C7: with the policy set fixed, two invocations of Evaluate on identical
(claims, http metadata, parsedRequest) inputs return identical decisions:
evaluation is a pure, deterministic function of its inputs. -/
theorem evaluate_deterministic (ps : PolicySet) (c₁ c₂ : Claims)
    (h₁ h₂ : HttpInfo) (p₁ p₂ : Option ParsedRequest)
    (hc : c₁ = c₂) (hh : h₁ = h₂) (hp : p₁ = p₂) :
    Evaluate ps c₁ h₁ p₁ = Evaluate ps c₂ h₂ p₂ := by
  subst hc; subst hh; subst hp; rfl

/-- Witness for C7 at a concrete policy set, claims map and request. -/
theorem evaluate_deterministic_witness :
    Evaluate (fun _ => Except.ok true) ([("sub", "alice")] : Claims)
        ⟨true, true, false⟩
        (some (parseRequest "tools/call" none (.obj [("name", .str "w")]))) =
      Evaluate (fun _ => Except.ok true) ([("sub", "alice")] : Claims)
        ⟨true, true, false⟩
        (some (parseRequest "tools/call" none (.obj [("name", .str "w")]))) :=
  evaluate_deterministic (fun _ => Except.ok true) _ _ _ _ _ _ rfl rfl rfl

/-- C8: for every provider type other than "encrypted", "1password" and
"none", CreateSecretProvider returns a nil provider together with
ErrUnknownManagerType; in particular "kubernetes" falls through to the
default case, so no Kubernetes provider can be constructed through the
factory. -/
theorem create_secret_provider_fails_on_unknown (Provider : Type)
    (env : FactoryEnv Provider) (t : String)
    (h1 : t ≠ "encrypted") (h2 : t ≠ "1password") (h3 : t ≠ "none") :
    CreateSecretProvider Provider env t =
      (none, some .errUnknownManagerType) ∧
    CreateSecretProvider Provider env "kubernetes" =
      (none, some .errUnknownManagerType) := by
  constructor
  · unfold CreateSecretProvider
    simp [h1, h2, h3]
  · rfl

/-- Witness for C8 at the provider type "kubernetes". -/
theorem create_secret_provider_fails_on_unknown_witness :
    CreateSecretProvider Unit ⟨true, .ok (), .ok (), .ok ()⟩ "kubernetes" =
      (none, some .errUnknownManagerType) :=
  (create_secret_provider_fails_on_unknown Unit ⟨true, .ok (), .ok (), .ok ()⟩
    "kubernetes" (by decide) (by decide) (by decide)).1

/-- C1: for a non-batch request on which the Policy Authorization Engine
returns Deny, the backend handler is never invoked, the chain terminates
before the Handled stage with the 403-shaped error, and exactly one audit
event and one telemetry span are still emitted against the terminal
state. -/
theorem deny_short_circuits_backend (ps : PolicySet) (handler : Handler)
    (claims : Claims) (http : HttpInfo) (p : ParsedRequest) (r : String)
    (_hb : p.isBatch = false)
    (hd : (Evaluate ps claims http (some p)).outcome = .deny r) :
    (runPipeline ps handler claims http (some p)).backendInvocations = 0 ∧
    (runPipeline ps handler claims http (some p)).handledReached = false ∧
    (runPipeline ps handler claims http (some p)).auditEvents = 1 ∧
    (runPipeline ps handler claims http (some p)).telemetrySpans = 1 ∧
    (runPipeline ps handler claims http (some p)).response =
      denyResponse p.id := by
  simp [runPipeline, hd, denyResponse]

/-- Witness for C1: a policy set answering false denies a tools/call
request, and the pipeline run emits the records without invoking the
backend. -/
theorem deny_short_circuits_backend_witness :
    (runPipeline (fun _ => Except.ok false)
        (fun _ => Except.ok Json.null) ([] : Claims) ⟨true, true, false⟩
        (some (parseRequest "tools/call" none (.obj [])))).backendInvocations
      = 0 ∧
    (runPipeline (fun _ => Except.ok false)
        (fun _ => Except.ok Json.null) ([] : Claims) ⟨true, true, false⟩
        (some (parseRequest "tools/call" none (.obj [])))).handledReached
      = false :=
  let h := deny_short_circuits_backend (fun _ => Except.ok false)
    (fun _ => Except.ok Json.null) ([] : Claims) ⟨true, true, false⟩
    (parseRequest "tools/call" none (.obj [])) "Unauthorized" rfl rfl
  ⟨h.1, h.2.1⟩

/-- C3: the engine fails closed.  Past the skip checks, a method with no
entry in the static method-to-(feature, operation) table is denied, and a
per-request policy evaluation error on a mapped non-list method is denied
as well — never allowed. -/
theorem evaluate_fails_closed (ps : PolicySet) (claims : Claims)
    (http : HttpInfo) (p : ParsedRequest)
    (hpost : http.isPost = true) (hjson : http.isJson = true)
    (hstream : http.isStreaming = false)
    (hallow : p.method ∉ methodAllowlist) :
    (methodToFeatureOperation p.method = none →
      (Evaluate ps claims http (some p)).outcome =
        .deny "method not mapped to a feature and operation") ∧
    (∀ f op e, methodToFeatureOperation p.method = some (f, op) →
      op ≠ .list → ps (buildEntity claims f op p) = .error e →
      (Evaluate ps claims http (some p)).outcome =
        .deny ("policy evaluation fault: " ++ e)) ∧
    (∀ r, AuthOutcome.deny r ≠ AuthOutcome.allow) := by
  refine ⟨fun hmap => ?_, fun f op e hmap hop herr => ?_, fun r h => by
    cases h⟩
  · simp [Evaluate, hpost, hjson, hstream, hallow, hmap]
  · simp [Evaluate, hpost, hjson, hstream, hallow, hmap, hop, herr]

/-- Witness for C3: an unmapped method is denied under a concrete policy
set that would have allowed anything. -/
theorem evaluate_fails_closed_witness :
    (Evaluate (fun _ => Except.ok true) ([] : Claims) ⟨true, true, false⟩
        (some (parseRequest "unknown/method" none (.obj [])))).outcome =
      .deny "method not mapped to a feature and operation" :=
  (evaluate_fails_closed (fun _ => Except.ok true) ([] : Claims)
    ⟨true, true, false⟩ (parseRequest "unknown/method" none (.obj []))
    rfl rfl rfl (by decide)).1 rfl

/-- C4: for non-POST or non-JSON requests, streaming-establishment
requests, and requests whose method is on the hard allowlist (ping,
progress/update, initialize), Evaluate skips evaluation entirely: the
outcome is the implicit Allow, no entity is constructed and no policy
lookup occurs. -/
theorem evaluate_hard_skip (ps : PolicySet) (claims : Claims)
    (http : HttpInfo) (pr : Option ParsedRequest)
    (h : (http.isPost = false ∨ http.isJson = false) ∨
         http.isStreaming = true ∨
         (∃ p, pr = some p ∧ p.method ∈ methodAllowlist)) :
    Evaluate ps claims http pr =
      { outcome := .skipped, entitiesBuilt := 0, policyLookups := 0 } := by
  obtain ⟨post, json, stream⟩ := http
  rcases h with (h | h) | h | ⟨p, rfl, hm⟩
  · subst h; simp [Evaluate]
  · subst h; simp [Evaluate]
  · subst h; cases post <;> cases json <;> simp [Evaluate]
  · cases post <;> cases json <;> cases stream <;> simp [Evaluate, hm]

/-- Witness for C4: a ping request over POST with JSON content is skipped
with no entity built and no policy lookup. -/
theorem evaluate_hard_skip_witness :
    Evaluate (fun _ => Except.ok false) ([] : Claims) ⟨true, true, false⟩
        (some (parseRequest "ping" none (.obj []))) =
      { outcome := .skipped, entitiesBuilt := 0, policyLookups := 0 } :=
  evaluate_hard_skip (fun _ => Except.ok false) ([] : Claims)
    ⟨true, true, false⟩ (some (parseRequest "ping" none (.obj [])))
    (Or.inr (Or.inr ⟨parseRequest "ping" none (.obj []), rfl, by decide⟩))

/-- C6: the parser projects resourceID and arguments by the fixed per-method
table: tools/call and prompts/get take resourceID from the name field and
arguments from the arguments field of params; ping,
notifications/roots/list_changed and notifications/initialized receive the
static resourceIDs "ping", "roots" and "initialized"; for every unknown
method, resourceID and arguments remain empty while the method name is
still captured. -/
theorem parser_method_table (id : Option Json) (params : Json) :
    ((parseRequest "tools/call" id params).resourceID =
        (params.getStr "name").getD "" ∧
     (parseRequest "tools/call" id params).arguments =
        params.getField "arguments") ∧
    ((parseRequest "prompts/get" id params).resourceID =
        (params.getStr "name").getD "" ∧
     (parseRequest "prompts/get" id params).arguments =
        params.getField "arguments") ∧
    (parseRequest "ping" id params).resourceID = "ping" ∧
    (parseRequest "notifications/roots/list_changed" id params).resourceID =
      "roots" ∧
    (parseRequest "notifications/initialized" id params).resourceID =
      "initialized" ∧
    (∀ m, m ∉ knownMethods →
      (parseRequest m id params).resourceID = "" ∧
      (parseRequest m id params).arguments = none ∧
      (parseRequest m id params).method = m) := by
  refine ⟨⟨rfl, rfl⟩, ⟨rfl, rfl⟩, rfl, rfl, rfl, fun m hm => ?_⟩
  simp only [knownMethods, List.mem_cons, List.mem_singleton, not_or,
    List.not_mem_nil] at hm
  obtain ⟨h1, h2, h3, h4, h5, h6, h7, h8, h9, h10, h11, h12, h13, h14, -⟩ :=
    hm
  refine ⟨?_, ?_, rfl⟩ <;>
    simp [parseRequest, extractMethod, h1, h2, h3, h4, h5, h6, h7, h8, h9,
      h10, h11, h12, h13, h14]

/-- Witness for C6: an unknown method yields an empty projection while the
method name is captured. -/
theorem parser_method_table_witness :
    (parseRequest "no/such" none (.obj [])).resourceID = "" ∧
    (parseRequest "no/such" none (.obj [])).arguments = none ∧
    (parseRequest "no/such" none (.obj [])).method = "no/such" :=
  (parser_method_table none (.obj [])).2.2.2.2.2 "no/such" (by decide)

/-- The split of `splitFirst` finds nothing exactly when the separator does
not occur. -/
theorem splitFirst_eq_none_iff (sep : Char) (cs : List Char) :
    splitFirst sep cs = none ↔ sep ∉ cs := by
  induction cs with
  | nil => simp [splitFirst]
  | cons c cs ih =>
    by_cases h : c = sep
    · subst h
      simp [splitFirst]
    · rw [splitFirst, if_neg h]
      cases hs : splitFirst sep cs with
      | none =>
        simp only [List.mem_cons]
        constructor
        · intro _ hc
          rcases hc with hc | hc
          · exact h hc.symm
          · exact (ih.mp hs) hc
        · intro _
          trivial
      | some p =>
        have hmem : sep ∈ cs := by
          by_contra hcon
          rw [ih.mpr hcon] at hs
          cases hs
        simp [List.mem_cons, hmem]

/-- Unfolding equation for GetSecret when the name has no '/' part. -/
theorem getSecret_eq_of_split_none (k : KubernetesManager) (name : String)
    (hn : name ≠ "") (h : splitFirst '/' name.toList = none) :
    k.GetSecret name =
      { result := .error ("invalid secret format: " ++ name ++
          ", expected <secret-name>/<key>"), queries := [] } := by
  unfold KubernetesManager.GetSecret
  rw [if_neg hn, h]

/-- Unfolding equation for GetSecret when a segment around the first '/' is
empty. -/
theorem getSecret_eq_of_empty_segment (k : KubernetesManager) (name : String)
    (s key : List Char) (hn : name ≠ "")
    (h : splitFirst '/' name.toList = some (s, key))
    (hempty : String.mk s = "" ∨ String.mk key = "") :
    k.GetSecret name =
      { result := .error ("invalid secret format: " ++ name ++
          ", secret name and key cannot be empty"), queries := [] } := by
  unfold KubernetesManager.GetSecret
  rw [if_neg hn, h]
  dsimp only
  rw [if_pos hempty]

/-- Unfolding equation for GetSecret on a well-formed name. -/
theorem getSecret_eq_of_wellformed (k : KubernetesManager) (name : String)
    (s key : List Char) (hn : name ≠ "")
    (h : splitFirst '/' name.toList = some (s, key))
    (hs : String.mk s ≠ "") (hk : String.mk key ≠ "") :
    k.GetSecret name =
      (match k.cluster.fetch k.ns (String.mk s) with
       | none =>
         { result := .error ("failed to get secret " ++ String.mk s),
           queries := [(k.ns, String.mk s)] }
       | some data =>
         match List.lookup (String.mk key) data with
         | none =>
           { result := .error ("key " ++ String.mk key ++
               " not found in secret " ++ String.mk s),
             queries := [(k.ns, String.mk s)] }
         | some v =>
           { result := .ok v, queries := [(k.ns, String.mk s)] }) := by
  unfold KubernetesManager.GetSecret
  rw [if_neg hn, h]
  dsimp only
  rw [if_neg (not_or.mpr ⟨hs, hk⟩)]

/-- C9: GetSecret rejects an empty name, a name without '/', and a name
whose secret-name or key segment around the first '/' is empty, each time
without any Kubernetes API lookup; for a well-formed name it queries exactly
that secret in the manager's namespace, returns the value stored under the
key, and errors exactly when the cluster lookup fails or the key is absent
from the secret's data. -/
theorem k8s_get_secret_contract (k : KubernetesManager) :
    ((k.GetSecret "").queries = [] ∧
     (∃ e, (k.GetSecret "").result = .error e)) ∧
    (∀ name, '/' ∉ name.toList →
      (k.GetSecret name).queries = [] ∧
      ∃ e, (k.GetSecret name).result = .error e) ∧
    (∀ name s key, splitFirst '/' name.toList = some (s, key) →
      (String.mk s = "" ∨ String.mk key = "") →
      (k.GetSecret name).queries = [] ∧
      ∃ e, (k.GetSecret name).result = .error e) ∧
    (∀ name s key, splitFirst '/' name.toList = some (s, key) →
      String.mk s ≠ "" → String.mk key ≠ "" →
      (k.GetSecret name).queries = [(k.ns, String.mk s)] ∧
      ((∃ e, (k.GetSecret name).result = .error e) ↔
        (k.cluster.fetch k.ns (String.mk s) = none ∨
         ∃ data, k.cluster.fetch k.ns (String.mk s) = some data ∧
           List.lookup (String.mk key) data = none)) ∧
      (∀ data v, k.cluster.fetch k.ns (String.mk s) = some data →
        List.lookup (String.mk key) data = some v →
        (k.GetSecret name).result = .ok v)) := by
  have hsplit_ne : ∀ (name : String) (s key : List Char),
      splitFirst '/' name.toList = some (s, key) → name ≠ "" := by
    intro name s key h he
    subst he
    simp [splitFirst] at h
  refine ⟨⟨rfl, "secret name cannot be empty", rfl⟩,
    fun name hsep => ?_, fun name s key h hempty => ?_,
    fun name s key h hs hk => ?_⟩
  · by_cases hn : name = ""
    · subst hn
      exact ⟨rfl, "secret name cannot be empty", rfl⟩
    · have hnone := (splitFirst_eq_none_iff '/' name.toList).mpr hsep
      rw [getSecret_eq_of_split_none k name hn hnone]
      exact ⟨rfl, _, rfl⟩
  · rw [getSecret_eq_of_empty_segment k name s key (hsplit_ne name s key h)
      h hempty]
    exact ⟨rfl, _, rfl⟩
  · rw [getSecret_eq_of_wellformed k name s key (hsplit_ne name s key h)
      h hs hk]
    cases hfetch : k.cluster.fetch k.ns (String.mk s) with
    | none =>
      dsimp only
      refine ⟨rfl, ?_, ?_⟩
      · exact ⟨fun _ => Or.inl rfl, fun _ => ⟨_, rfl⟩⟩
      · intro data v hdata hv
        cases hdata
    | some data =>
      dsimp only
      cases hlook : List.lookup (String.mk key) data with
      | none =>
        dsimp only
        refine ⟨rfl, ?_, ?_⟩
        · exact ⟨fun _ => Or.inr ⟨data, rfl, hlook⟩, fun _ => ⟨_, rfl⟩⟩
        · intro data2 v hdata hv
          injection hdata with hdata
          subst hdata
          rw [hv] at hlook
          cases hlook
      | some v =>
        dsimp only
        refine ⟨rfl, ?_, ?_⟩
        · constructor
          · rintro ⟨e, he⟩
            cases he
          · rintro (hc | ⟨data2, hd, hl⟩)
            · cases hc
            · injection hd with hd
              subst hd
              rw [hl] at hlook
              cases hlook
        · intro data2 v2 hdata hv
          injection hdata with hdata
          subst hdata
          rw [hv] at hlook
          injection hlook with hlook
          subst hlook
          rfl

/-- A concrete manager over a one-secret cluster, for the GetSecret
witness. -/
def kWitnessManager : KubernetesManager :=
  { cluster := ⟨fun ns n =>
      if ns = "default" ∧ n = "gh" then some [("token", "abc")] else none⟩,
    ns := "default" }

/-- Witness for C9: the well-formed name "gh/token" queries the "gh" secret
in the "default" namespace and returns the value under "token". -/
theorem k8s_get_secret_contract_witness :
    (kWitnessManager.GetSecret "gh/token").result = Except.ok "abc" ∧
    (kWitnessManager.GetSecret "gh/token").queries = [("default", "gh")] := by
  have h := (k8s_get_secret_contract kWitnessManager).2.2.2 "gh/token"
    "gh".toList "token".toList (by decide) (by decide) (by decide)
  exact ⟨h.2.2 [("token", "abc")] "abc" rfl rfl, h.1⟩

/-- The collection loop keeps exactly the trimmed lines that are non-empty,
do not start with '#', and contain '='. -/
theorem buildEnvLines_eq_filter (ls : List (List Char)) :
    buildEnvLines ls =
      ((ls.map trimChars).filter
        (fun l => !l.isEmpty && !(l.head? == some '#') && l.contains '=')).map
        String.mk := by
  induction ls with
  | nil => rfl
  | cons l rest ih =>
    simp only [buildEnvLines, List.map_cons, List.filter_cons]
    by_cases h1 : trimChars l = []
    · simp [h1, ih]
    · by_cases h2 : (trimChars l).head? = some '#'
      · simp [h1, h2, ih]
      · by_cases h3 : '=' ∈ trimChars l
        · simp [h1, h2, h3, ih]
        · simp [h1, h2, h3, ih]

/-- C10: processVaultSecretFile ignores lines that are empty after
trimming, lines that (after trimming) start with '#', and lines containing
no '='; it returns exactly the environment-variable map parsed from the
remaining KEY=VALUE lines, and when no such lines exist it returns an
empty map and no error. -/
theorem vault_secret_file_contract
    (parseEnv : List String → Except String (List (String × String)))
    (content : String) :
    buildEnvLines (splitLines content.toList) =
      (((splitLines content.toList).map trimChars).filter
        (fun l => !l.isEmpty && !(l.head? == some '#') && l.contains '=')).map
        String.mk ∧
    (buildEnvLines (splitLines content.toList) = [] →
      processVaultSecretFile parseEnv content = .ok []) ∧
    (∀ m, buildEnvLines (splitLines content.toList) ≠ [] →
      parseEnv (buildEnvLines (splitLines content.toList)) = .ok m →
      processVaultSecretFile parseEnv content = .ok m) := by
  refine ⟨buildEnvLines_eq_filter _, fun hempty => ?_, fun m hne hok => ?_⟩
  · simp only [String.toList] at hempty
    simp [processVaultSecretFile, hempty]
  · simp only [String.toList] at hne hok
    simp [processVaultSecretFile, hne, hok]

/-- Witness for C10: comments, blank lines and lines without '=' are
dropped and the surviving lines are handed to the parser. -/
theorem vault_secret_file_contract_witness :
    processVaultSecretFile (fun ls => Except.ok (ls.map (fun l => (l, l))))
        "# comment\nA=1\n\nnoequals\nB=2" =
      .ok [("A=1", "A=1"), ("B=2", "B=2")] :=
  (vault_secret_file_contract (fun ls => Except.ok (ls.map (fun l => (l, l))))
      "# comment\nA=1\n\nnoequals\nB=2").2.2
    [("A=1", "A=1"), ("B=2", "B=2")] (by decide) rfl
